import Mathlib

/-!
Verification of the traffic-capture subsystem of the martian proxy fork
(HAR-style capture model, body materializer, capture orchestrator, publish
pipeline, and the operator-facing mapping handlers).

Go strings and byte slices are modelled as lists of natural numbers
(`Bytes`), each element a byte value; Go's `nil`/error returns are modelled
with `Option` and `Except`.
-/

namespace Har

/-- A Go string / byte slice: a sequence of bytes. -/
abbrev Bytes := List Nat

/-- UTF-8 encoding of a single code point (used to spell byte strings from
Lean string literals). -/
def utf8EncodeCp (n : Nat) : Bytes :=
  if n < 0x80 then [n]
  else if n < 0x800 then [0xC0 + n / 64, 0x80 + n % 64]
  else if n < 0x10000 then [0xE0 + n / 4096, 0x80 + n / 64 % 64, 0x80 + n % 64]
  else [0xF0 + n / 262144, 0x80 + n / 4096 % 64, 0x80 + n / 64 % 64, 0x80 + n % 64]

/-- The bytes of a Lean string literal, as a Go string value. -/
def strBytes (s : String) : Bytes :=
  s.data.flatMap (fun c => utf8EncodeCp c.toNat)

/-- Is `b` a UTF-8 continuation byte (0x80..0xBF)? -/
def isCont (b : Nat) : Bool := 0x80 ≤ b && b ≤ 0xBF

/-- Go `unicode/utf8.ValidString`: whether the byte sequence is entirely
valid UTF-8.  The leading-byte classes and the accepted ranges of the first
continuation byte follow Go's `acceptRanges` table (which excludes overlong
encodings, surrogates and code points above U+10FFFF). -/
def validUtf8 : Bytes → Bool
  | [] => true
  | b :: rest =>
    if b < 0x80 then validUtf8 rest
    else if 0xC2 ≤ b && b ≤ 0xDF then
      match rest with
      | c1 :: r => isCont c1 && validUtf8 r
      | [] => false
    else if b = 0xE0 then
      match rest with
      | c1 :: c2 :: r => (0xA0 ≤ c1 && c1 ≤ 0xBF) && isCont c2 && validUtf8 r
      | _ => false
    else if 0xE1 ≤ b && b ≤ 0xEC then
      match rest with
      | c1 :: c2 :: r => isCont c1 && isCont c2 && validUtf8 r
      | _ => false
    else if b = 0xED then
      match rest with
      | c1 :: c2 :: r => (0x80 ≤ c1 && c1 ≤ 0x9F) && isCont c2 && validUtf8 r
      | _ => false
    else if 0xEE ≤ b && b ≤ 0xEF then
      match rest with
      | c1 :: c2 :: r => isCont c1 && isCont c2 && validUtf8 r
      | _ => false
    else if b = 0xF0 then
      match rest with
      | c1 :: c2 :: c3 :: r => (0x90 ≤ c1 && c1 ≤ 0xBF) && isCont c2 && isCont c3 && validUtf8 r
      | _ => false
    else if 0xF1 ≤ b && b ≤ 0xF3 then
      match rest with
      | c1 :: c2 :: c3 :: r => isCont c1 && isCont c2 && isCont c3 && validUtf8 r
      | _ => false
    else if b = 0xF4 then
      match rest with
      | c1 :: c2 :: c3 :: r => (0x80 ≤ c1 && c1 ≤ 0x8F) && isCont c2 && isCont c3 && validUtf8 r
      | _ => false
    else false

/-- The standard base64 alphabet (Go `encoding/base64.StdEncoding`):
sextet value to ASCII code. -/
def b64tbl (s : Nat) : Nat :=
  if s < 26 then s + 65
  else if s < 52 then s + 71
  else if s < 62 then s - 52 + 48
  else if s = 62 then 43
  else 47

/-- Inverse of the standard base64 alphabet: ASCII code to sextet value,
`none` for characters outside the alphabet (including the pad `=`). -/
def unb64 (c : Nat) : Option Nat :=
  if 65 ≤ c ∧ c ≤ 90 then some (c - 65)
  else if 97 ≤ c ∧ c ≤ 122 then some (c - 97 + 26)
  else if 48 ≤ c ∧ c ≤ 57 then some (c - 48 + 52)
  else if c = 43 then some 62
  else if c = 47 then some 63
  else none

/-- Go `base64.StdEncoding.EncodeToString`: 3 input bytes become 4 alphabet
characters; a final quantum of 1 or 2 bytes is padded with `=` (byte 61). -/
def b64encode : List Nat → List Nat
  | [] => []
  | [b0] => [b64tbl (b0 / 4), b64tbl (b0 % 4 * 16), 61, 61]
  | [b0, b1] => [b64tbl (b0 / 4), b64tbl (b0 % 4 * 16 + b1 / 16), b64tbl (b1 % 16 * 4), 61]
  | b0 :: b1 :: b2 :: rest =>
    b64tbl (b0 / 4) :: b64tbl (b0 % 4 * 16 + b1 / 16) :: b64tbl (b1 % 16 * 4 + b2 / 64)
      :: b64tbl (b2 % 64) :: b64encode rest

/-- Go `base64.StdEncoding.DecodeString`: input is consumed in 4-character
quanta; `=` padding is accepted only in the last quantum; any character
outside the alphabet, misplaced padding, or a trailing partial quantum is an
error. -/
def b64decode : List Nat → Except Bytes (List Nat)
  | [] => .ok []
  | c0 :: c1 :: c2 :: c3 :: rest =>
    match unb64 c0, unb64 c1 with
    | some s0, some s1 =>
      if c2 = 61 then
        if c3 = 61 ∧ rest = [] then .ok [s0 * 4 + s1 / 16]
        else .error (strBytes "illegal base64 data")
      else
        match unb64 c2 with
        | some s2 =>
          if c3 = 61 then
            if rest = [] then .ok [s0 * 4 + s1 / 16, s1 % 16 * 16 + s2 / 4]
            else .error (strBytes "illegal base64 data")
          else
            match unb64 c3 with
            | some s3 =>
              (b64decode rest).map
                (fun tl => (s0 * 4 + s1 / 16) :: (s1 % 16 * 16 + s2 / 4) :: ((s2 % 4 * 64 + s3) :: tl))
            | none => .error (strBytes "illegal base64 data")
        | none => .error (strBytes "illegal base64 data")
    | _, _ => .error (strBytes "illegal base64 data")
  | _ => .error (strBytes "illegal base64 data length")

theorem unb64_b64tbl {s : Nat} (h : s < 64) : unb64 (b64tbl s) = some s := by
  revert s h
  decide

theorem b64tbl_ne_pad {s : Nat} (h : s < 64) : b64tbl s ≠ 61 := by
  revert s h
  decide

theorem mulAddDivCancel {k x y : Nat} (hk : 0 < k) (hy : y < k) : (x * k + y) / k = x := by
  rw [Nat.mul_comm, Nat.mul_add_div hk, Nat.div_eq_of_lt hy]
  omega

theorem mulAddModCancel {k x y : Nat} (hy : y < k) : (x * k + y) % k = y := by
  rw [Nat.mul_comm, Nat.mul_add_mod, Nat.mod_eq_of_lt hy]

/-- Decoding inverts encoding on byte sequences. -/
theorem b64decode_b64encode : ∀ (l : List Nat), (∀ b ∈ l, b < 256) →
    b64decode (b64encode l) = .ok l
  | [], _ => rfl
  | [b0], h => by
    have hb0 : b0 < 256 := h b0 (by simp)
    have h1 : b0 / 4 < 64 := by omega
    have h2 : b0 % 4 * 16 < 64 := by omega
    simp [b64encode, b64decode, unb64_b64tbl h1, unb64_b64tbl h2]
    omega
  | [b0, b1], h => by
    have hb0 : b0 < 256 := h b0 (by simp)
    have hb1 : b1 < 256 := h b1 (by simp)
    have h1 : b0 / 4 < 64 := by omega
    have h2 : b0 % 4 * 16 + b1 / 16 < 64 := by omega
    have h3 : b1 % 16 * 4 < 64 := by omega
    have i1 : (b0 % 4 * 16 + b1 / 16) / 16 = b0 % 4 :=
      mulAddDivCancel (by norm_num) (by omega)
    have i2 : (b0 % 4 * 16 + b1 / 16) % 16 = b1 / 16 :=
      mulAddModCancel (by omega)
    simp [b64encode, b64decode, unb64_b64tbl h1, unb64_b64tbl h2,
      b64tbl_ne_pad h3, unb64_b64tbl h3, i1, i2]
    omega
  | [b0, b1, b2], h => by
    have hb0 : b0 < 256 := h b0 (by simp)
    have hb1 : b1 < 256 := h b1 (by simp)
    have hb2 : b2 < 256 := h b2 (by simp)
    have h1 : b0 / 4 < 64 := by omega
    have h2 : b0 % 4 * 16 + b1 / 16 < 64 := by omega
    have h3 : b1 % 16 * 4 + b2 / 64 < 64 := by omega
    have h4 : b2 % 64 < 64 := by omega
    have i1 : (b0 % 4 * 16 + b1 / 16) / 16 = b0 % 4 :=
      mulAddDivCancel (by norm_num) (by omega)
    have i2 : (b0 % 4 * 16 + b1 / 16) % 16 = b1 / 16 :=
      mulAddModCancel (by omega)
    have i3 : (b1 % 16 * 4 + b2 / 64) / 4 = b1 % 16 :=
      mulAddDivCancel (by norm_num) (by omega)
    have i4 : (b1 % 16 * 4 + b2 / 64) % 4 = b2 / 64 :=
      mulAddModCancel (by omega)
    simp [b64encode, b64decode, unb64_b64tbl h1, unb64_b64tbl h2,
      b64tbl_ne_pad h3, unb64_b64tbl h3, b64tbl_ne_pad h4, unb64_b64tbl h4,
      Except.map, i1, i2, i3, i4]
    omega
  | b0 :: b1 :: b2 :: b3 :: rest, h => by
    have hb0 : b0 < 256 := h b0 (by simp)
    have hb1 : b1 < 256 := h b1 (by simp)
    have hb2 : b2 < 256 := h b2 (by simp)
    have h1 : b0 / 4 < 64 := by omega
    have h2 : b0 % 4 * 16 + b1 / 16 < 64 := by omega
    have h3 : b1 % 16 * 4 + b2 / 64 < 64 := by omega
    have h4 : b2 % 64 < 64 := by omega
    have ih := b64decode_b64encode (b3 :: rest) (fun b hb => h b (by simp_all))
    have i1 : (b0 % 4 * 16 + b1 / 16) / 16 = b0 % 4 :=
      mulAddDivCancel (by norm_num) (by omega)
    have i2 : (b0 % 4 * 16 + b1 / 16) % 16 = b1 / 16 :=
      mulAddModCancel (by omega)
    have i3 : (b1 % 16 * 4 + b2 / 64) / 4 = b1 % 16 :=
      mulAddDivCancel (by norm_num) (by omega)
    have i4 : (b1 % 16 * 4 + b2 / 64) % 4 = b2 / 64 :=
      mulAddModCancel (by omega)
    simp [b64encode, b64decode, unb64_b64tbl h1, unb64_b64tbl h2,
      b64tbl_ne_pad h3, unb64_b64tbl h3, b64tbl_ne_pad h4, unb64_b64tbl h4,
      ih, Except.map, i1, i2, i3, i4]
    omega

/-! ## Capture model (`Entry`, `Request`, `PostData`, `Content`, ...)

Translated from the HAR structures of the capture file.  Go strings are
`Bytes`; absent JSON fields of the wire forms are represented by the empty
byte string, matching Go's conflation of an absent field with the zero
value on unmarshal (and `omitempty` on marshal). -/

/-- `Param` — an individual posted parameter. -/
structure Param where
  name : Bytes
  value : Bytes
  filename : Bytes
  contentType : Bytes
deriving Repr, DecidableEq

/-- `PostData` — posted data on a request. `text` may contain binary data. -/
structure PostData where
  mimeType : Bytes
  params : List Param
  text : Bytes
deriving Repr, DecidableEq

/-- `Content` — details about response content, with a producer-decided
`encoding` tag. -/
structure Content where
  size : Int
  mimeType : Bytes
  text : Bytes
  encoding : Bytes
deriving Repr, DecidableEq

/-- `Header` — an HTTP request or response header. -/
structure Header where
  name : Bytes
  value : Bytes
deriving Repr, DecidableEq

/-- `QueryString` — a query string parameter on a request. -/
structure QueryString where
  name : Bytes
  value : Bytes
deriving Repr, DecidableEq

/-- `Cookie` — data about a cookie on a request or response.  The expiry is
carried both structurally (`expires`, seconds, zero meaning unset) and as
the formatted string (`expires8601`, empty when the expiry is zero). -/
structure Cookie where
  name : Bytes
  value : Bytes
  path : Bytes
  domain : Bytes
  expires : Int
  expires8601 : Bytes
  httpOnly : Bool
  secure : Bool
deriving Repr, DecidableEq

/-- `Request` — data about an individual HTTP request. -/
structure Request where
  method : Bytes
  url : Bytes
  httpVersion : Bytes
  cookies : List Cookie
  headers : List Header
  queryString : List QueryString
  postData : Option PostData
  headersSize : Int
  bodySize : Int
deriving Repr, DecidableEq

/-- `Response` — data about an individual HTTP response. -/
structure Response where
  status : Int
  statusText : Bytes
  httpVersion : Bytes
  cookies : List Cookie
  headers : List Header
  content : Option Content
  redirectURL : Bytes
  headersSize : Int
  bodySize : Int
deriving Repr, DecidableEq

/-- `Timings` — send/wait/receive phases, placeholders here. -/
structure Timings where
  send : Int := 0
  wait : Int := 0
  receive : Int := 0
deriving Repr, DecidableEq

/-- `Entry` — one captured transaction.  `next` is the chain pointer used
only to link entries in arrival order (modelled by the id of the next
entry); the `Cache` placeholder has no fields and is omitted. -/
structure Entry where
  id : Bytes
  startedDateTime : Int
  time : Int
  request : Option Request
  host : Bytes
  response : Option Response
  timings : Timings
  next : Option Bytes
deriving Repr, DecidableEq

/-! ## Codec (wire forms and `MarshalJSON`/`UnmarshalJSON` hooks)

The JSON wire shape of a marshalled `PostData`/`Content` is modelled by a
record of the fields that appear in the emitted object.  The `text` field
holds the bytes of the JSON string written for it (the literal payload, or
its base64 encoding); `encoding = []` models the tag being absent, which on
the Go side is indistinguishable from the empty string. -/

/-- Wire form shared by a marshalled plain `PostData` (no encoding tag) and
a marshalled `pdBinary` (text base64-encoded, tag `"base64"`). -/
structure PdWire where
  mimeType : Bytes
  params : List Param
  text : Bytes
  encoding : Bytes
deriving Repr, DecidableEq

/-- `PostData.MarshalJSON`: if `utf8.ValidString(p.Text)` the plain struct
is marshalled (no `encoding` field); otherwise a `pdBinary` is marshalled,
whose `Text []byte` the json library emits base64-encoded, tagged
`encoding: "base64"`. -/
def PostData.marshal (p : PostData) : PdWire :=
  if validUtf8 p.text then
    { mimeType := p.mimeType, params := p.params, text := p.text, encoding := [] }
  else
    { mimeType := p.mimeType, params := p.params, text := b64encode p.text,
      encoding := strBytes "base64" }

/-- `PostData.UnmarshalJSON` (on a non-null document): read the `encoding`
field; when it is not `"base64"` unmarshal the document as a plain
`PostData` (the text field is taken literally); when it is `"base64"`
unmarshal as `pdBinary`, whose `Text []byte` field base64-decodes the JSON
string (an invalid base64 payload is an error). -/
def PostData.unmarshal (w : PdWire) : Except Bytes PostData :=
  if w.encoding ≠ strBytes "base64" then
    .ok { mimeType := w.mimeType, params := w.params, text := w.text }
  else
    (b64decode w.text).map
      (fun t => { mimeType := w.mimeType, params := w.params, text := t })

/-- Wire form of a marshalled `Content` (`contentJSON`). -/
structure ContentWire where
  size : Int
  mimeType : Bytes
  text : Bytes
  encoding : Bytes
deriving Repr, DecidableEq

/-- `Content.MarshalJSON`: switch on the producer-set `c.Encoding` —
`"base64"` emits the base64 encoding of the bytes, the empty tag emits the
bytes literally, and any other tag is an error.  The text bytes are never
inspected. -/
def Content.marshal (c : Content) : Except Bytes ContentWire :=
  if c.encoding = strBytes "base64" then
    .ok { size := c.size, mimeType := c.mimeType, text := b64encode c.text,
          encoding := c.encoding }
  else if c.encoding = [] then
    .ok { size := c.size, mimeType := c.mimeType, text := c.text,
          encoding := c.encoding }
  else
    .error (strBytes "unsupported encoding for Content.Text")

/-- `Content.UnmarshalJSON`: switch on the wire `encoding` — `"base64"`
decodes the text field (a decode failure is an error), the absent/empty tag
takes it literally, and any other tag is an error. -/
def Content.unmarshal (w : ContentWire) : Except Bytes Content :=
  if w.encoding = strBytes "base64" then
    (b64decode w.text).map
      (fun t => { size := w.size, mimeType := w.mimeType, text := t,
                  encoding := w.encoding })
  else if w.encoding = [] then
    .ok { size := w.size, mimeType := w.mimeType, text := w.text,
          encoding := w.encoding }
  else
    .error (strBytes "unsupported encoding for Content.Text")

/-! ## URL-encoded form parsing (Go stdlib `net/url`, external collaborator)

`postData` aborts on the first error `url.ParseQuery` reports, so the model
returns at the first failing pair; the successfully parsed pairs are kept
in the order they appear in the body.  Semicolon separators (whose handling
is Go-version dependent) are not exercised by any claim and are treated as
ordinary bytes. -/

/-- Value of an ASCII hex digit, `none` otherwise. -/
def hexVal (c : Nat) : Option Nat :=
  if 48 ≤ c ∧ c ≤ 57 then some (c - 48)
  else if 97 ≤ c ∧ c ≤ 102 then some (c - 97 + 10)
  else if 65 ≤ c ∧ c ≤ 70 then some (c - 65 + 10)
  else none

/-- Go `url.QueryUnescape`: `%XX` hex escapes are decoded, `+` becomes a
space, a malformed escape is an error. -/
def queryUnescape : Bytes → Except Bytes Bytes
  | [] => .ok []
  | b :: rest =>
    if b = 37 then
      match rest with
      | h1 :: h2 :: r =>
        match hexVal h1, hexVal h2 with
        | some v1, some v2 => (queryUnescape r).map (fun t => (v1 * 16 + v2) :: t)
        | _, _ => .error (strBytes "invalid URL escape")
      | _ => .error (strBytes "invalid URL escape")
    else if b = 43 then (queryUnescape rest).map (fun t => 32 :: t)
    else (queryUnescape rest).map (fun t => b :: t)

/-- Split a byte string at every occurrence of `sep` (the result always has
at least one, possibly empty, segment). -/
def splitOnByte (sep : Nat) : Bytes → List Bytes
  | [] => [[]]
  | b :: rest =>
    let r := splitOnByte sep rest
    if b = sep then [] :: r
    else
      match r with
      | x :: xs => (b :: x) :: xs
      | [] => [[b]]

/-- Go `strings.Cut`: the part before the first `sep`, the part after it,
and whether `sep` occurred. -/
def cutByte (sep : Nat) : Bytes → Bytes × Bytes × Bool
  | [] => ([], [], false)
  | b :: rest =>
    if b = sep then ([], rest, true)
    else
      let (pre, post, found) := cutByte sep rest
      (b :: pre, post, found)

/-- The `key=value` pairs of the query segments, body order preserved. -/
def parseQueryPairs : List Bytes → Except Bytes (List (Bytes × Bytes))
  | [] => .ok []
  | seg :: rest =>
    if seg = [] then parseQueryPairs rest
    else
      let (k, v, _) := cutByte 61 seg
      match queryUnescape k with
      | .error e => .error e
      | .ok k' =>
        match queryUnescape v with
        | .error e => .error e
        | .ok v' => (parseQueryPairs rest).map (fun t => (k', v') :: t)

/-- Go `url.ParseQuery`: split the body on `&` and decode each pair. -/
def parseQuery (query : Bytes) : Except Bytes (List (Bytes × Bytes)) :=
  parseQueryPairs (splitOnByte 38 query)

/-- `m[key] = append(m[key], value)` on the `url.Values` map: the content
of the map, keys listed in first-appearance order (which key order a Go
`range` then visits is unspecified and is a separate parameter below). -/
def valuesAdd (m : List (Bytes × List Bytes)) (k v : Bytes) : List (Bytes × List Bytes) :=
  match m with
  | [] => [(k, [v])]
  | (k', vs) :: rest =>
    if k' = k then (k', vs ++ [v]) :: rest else (k', vs) :: valuesAdd rest k v

/-- The `url.Values` content produced by `ParseQuery` from the given pairs. -/
def buildValues (pairs : List (Bytes × Bytes)) : List (Bytes × List Bytes) :=
  pairs.foldl (fun m kv => valuesAdd m kv.1 kv.2) []

/-- Map access `m[k]` (the ordered value list of one key, `[]` if absent). -/
def lookupValues : List (Bytes × List Bytes) → Bytes → List Bytes
  | [], _ => []
  | e :: rest, k => if e.1 = k then e.2 else lookupValues rest k

/-- The double `range` loop of `postData`'s urlencoded branch: Go iterates
the `url.Values` map keys in an unspecified order, modelled by the explicit
`keyOrder`, and appends one `Param` per value of each visited key, values
in insertion order. -/
def rangeParams (keyOrder : List Bytes) (m : List (Bytes × List Bytes)) : List Param :=
  keyOrder.flatMap (fun k => (lookupValues m k).map (fun v => ⟨k, v, [], []⟩))

/-! ## Content-Type parsing (Go stdlib `mime`, external collaborator) -/

/-- ASCII whitespace for trimming. -/
def isSpaceB (b : Nat) : Bool := b = 32 || b = 9 || b = 10 || b = 13

/-- ASCII lower-casing of one byte. -/
def toLowerB (b : Nat) : Nat := if 65 ≤ b ∧ b ≤ 90 then b + 32 else b

/-- Trim ASCII whitespace on both ends. -/
def trimSpace (s : Bytes) : Bytes :=
  ((s.dropWhile isSpaceB).reverse.dropWhile isSpaceB).reverse

/-- Strip one pair of surrounding double quotes, if present. -/
def stripQuotes (s : Bytes) : Bytes :=
  match s with
  | 34 :: rest => if rest ≠ [] ∧ rest.getLast? = some 34 then rest.dropLast else s
  | _ => s

/-- One `key=value` parameter segment of a media type, `none` if malformed. -/
def mediaParamSeg (seg : Bytes) : Option (Bytes × Bytes) :=
  let s := trimSpace seg
  if s = [] then none
  else
    let (k, v, found) := cutByte 61 s
    if found then some ((trimSpace k).map toLowerB, stripQuotes (trimSpace v)) else none

/-- Model of the external Go stdlib `mime.ParseMediaType`, at the precision
the capture code relies on: the media type is the lower-cased, trimmed part
before the first `;` (an empty one is an error, on which `postData` falls
back to the raw header value), followed by `key=value` parameters. -/
def parseMediaType (ct : Bytes) : Except Bytes (Bytes × List (Bytes × Bytes)) :=
  match splitOnByte 59 ct with
  | [] => .error (strBytes "mime: no media type")
  | seg0 :: rest =>
    let mt := (trimSpace seg0).map toLowerB
    if mt = [] then .error (strBytes "mime: no media type")
    else .ok (mt, rest.filterMap mediaParamSeg)

/-! ## Body materializer (`postData`, `NewRequest`, `headers`, `cookies`) -/

/-- One part as yielded by the external `mime/multipart` reader: form field
name, file name, declared content type, and the part's full contents. -/
structure MPart where
  formName : Bytes
  fileName : Bytes
  contentType : Bytes
  contents : Bytes
deriving Repr, DecidableEq

/-- An `*http.Cookie` as returned by `req.Cookies()` (ordered slice).
`expires` is the expiry in seconds, `0` modelling `time.Time.IsZero`. -/
structure GoCookie where
  name : Bytes
  value : Bytes
  path : Bytes
  domain : Bytes
  expires : Int
  httpOnly : Bool
  secure : Bool
deriving Repr, DecidableEq

/-- A live `*http.Request` as the capture code sees it.  `headers` is the
`http.Header` map with its entries in the order a Go `range` visits them
(unspecified by Go); `urlQuery` likewise holds the `req.URL.Query()`
name/value pairs in range order; `body` is the content of the body stream.
`multipartView` is the outcome of the external `mime/multipart` reader on
this request's body and boundary (the parts it would yield, or the error it
would report), folded into the request model because that reader is an
external collaborator. -/
structure HttpRequest where
  method : Bytes
  urlStr : Bytes
  proto : Bytes
  host : Bytes
  contentLength : Int
  transferEncoding : List Bytes
  headers : List (Bytes × List Bytes)
  cookies : List GoCookie
  urlQuery : List (Bytes × Bytes)
  body : Bytes
  multipartView : Except Bytes (List MPart)

/-- `http.Header.Get`: first value of the (canonical) key, or empty. -/
def headerGet : List (Bytes × List Bytes) → Bytes → Bytes
  | [], _ => []
  | e :: rest, k =>
    if e.1 = k then
      match e.2 with
      | v :: _ => v
      | [] => []
    else headerGet rest k

/-- Modelled from the spec: the non-destructive body-snapshot facility
(`messageview.New`/`SnapshotRequest`/`BodyReader` — repository code not
under src/).  Per §6 it "allows reading an HTTP request's body without
disturbing it for downstream consumers": it yields the full body bytes and
returns the request with its body stream intact and re-readable. -/
def snapshotRequest (req : HttpRequest) : Except Bytes (Bytes × HttpRequest) :=
  .ok (req.body, req)

/-- `postData`: content-type-aware materialization of a request body.
Follows the source: the nothing-to-capture early return, the
`Content-Type` parse with raw-value fallback, the headers-only shape when
`logBody` is false, and the three content-type-specific decodings of the
snapshot.  `keyOrder` is the unspecified order in which the Go `range`
visits the `url.Values` keys in the urlencoded branch. -/
def postData (keyOrder : List Bytes) (req : HttpRequest) (logBody : Bool) :
    Except Bytes (Option PostData × HttpRequest) :=
  if req.contentLength ≤ 0 ∧ req.transferEncoding = [] then .ok (none, req)
  else
    let ct := headerGet req.headers (strBytes "Content-Type")
    let mt := match parseMediaType ct with
      | .ok x => x.1
      | .error _ => ct
    if ¬ logBody then .ok (some ⟨mt, [], []⟩, req)
    else
      match snapshotRequest req with
      | .error e => .error e
      | .ok (body, req') =>
        if mt = strBytes "multipart/form-data" then
          -- the boundary parameter is consumed by the external multipart
          -- reader, whose outcome on this request is `multipartView`
          match req.multipartView with
          | .error e => .error e
          | .ok parts =>
            .ok (some ⟨mt, parts.map (fun p => ⟨p.formName, p.contents, p.fileName, p.contentType⟩), []⟩, req')
        else if mt = strBytes "application/x-www-form-urlencoded" then
          match parseQuery body with
          | .error e => .error e
          | .ok pairs =>
            .ok (some ⟨mt, rangeParams keyOrder (buildValues pairs), []⟩, req')
        else
          .ok (some ⟨mt, [], body⟩, req')

/-- Decimal rendering of a natural number. -/
def natToBytes (n : Nat) : Bytes :=
  if h : n < 10 then [48 + n]
  else natToBytes (n / 10) ++ [48 + n % 10]
decreasing_by omega

/-- Placeholder rendering of a cookie expiry timestamp (`time.Format
RFC3339`, external stdlib; no claim inspects the rendered form). -/
def rfc3339 (t : Int) : Bytes := natToBytes t.toNat

/-- `cookies`: convert `req.Cookies()` (an ordered slice) to HAR cookies;
the formatted expiry is emitted only for a non-zero expiry time. -/
def cookiesList (cs : List GoCookie) : List Cookie :=
  cs.map (fun c =>
    { name := c.name, value := c.value, path := c.path, domain := c.domain,
      expires := c.expires,
      expires8601 := if c.expires = (0 : Int) then [] else rfc3339 c.expires,
      httpOnly := c.httpOnly, secure := c.secure })

/-- `headers`: flatten the `http.Header` map (in range order) into one
`Header` element per value. -/
def headersList (hs : List (Bytes × List Bytes)) : List Header :=
  hs.flatMap (fun nv => nv.2.map (fun v => ⟨nv.1, v⟩))

/-- `NewRequest`: build the capture `Request` from a live request; when
`withBody` is set the body is materialized through `postData` and any error
aborts the construction. -/
def newRequest (keyOrder : List Bytes) (req : HttpRequest) (withBody : Bool) :
    Except Bytes (Request × HttpRequest) :=
  match postData keyOrder req withBody with
  | .error e => .error e
  | .ok (pd, req') =>
    .ok ({ method := req.method, url := req.urlStr, httpVersion := req.proto,
           headersSize := -1, bodySize := req.contentLength,
           queryString := req.urlQuery.map (fun nv => ⟨nv.1, nv.2⟩),
           headers := headersList req.headers,
           cookies := cookiesList req.cookies,
           postData := pd }, req')

/-! ## Capture orchestrator and publish pipeline (`Logger`) -/

/-- Wire form of a marshalled `Request`: only `PostData` has a custom
marshal hook, the other fields are emitted as-is. -/
structure RequestWire where
  method : Bytes
  url : Bytes
  httpVersion : Bytes
  cookies : List Cookie
  headers : List Header
  queryString : List QueryString
  postData : Option PdWire
  headersSize : Int
  bodySize : Int
deriving Repr, DecidableEq

/-- Wire form of a marshalled `Response` (the `Content` hook may fail). -/
structure ResponseWire where
  status : Int
  statusText : Bytes
  httpVersion : Bytes
  cookies : List Cookie
  headers : List Header
  content : Option ContentWire
  redirectURL : Bytes
  headersSize : Int
  bodySize : Int
deriving Repr, DecidableEq

/-- Wire form of a marshalled `Entry` (the unexported `next` pointer is not
serialized). -/
structure EntryWire where
  id : Bytes
  startedDateTime : Int
  time : Int
  request : Option RequestWire
  host : Bytes
  response : Option ResponseWire
  timings : Timings
deriving Repr, DecidableEq

/-- `json.Marshal` of a `Request` value (total: `PostData.MarshalJSON`
never fails). -/
def Request.marshal (r : Request) : RequestWire :=
  { method := r.method, url := r.url, httpVersion := r.httpVersion,
    cookies := r.cookies, headers := r.headers, queryString := r.queryString,
    postData := r.postData.map PostData.marshal,
    headersSize := r.headersSize, bodySize := r.bodySize }

/-- `json.Marshal` of a `Response` value: fails iff `Content.MarshalJSON`
fails on its content. -/
def Response.marshal (r : Response) : Except Bytes ResponseWire :=
  match r.content with
  | none =>
    .ok { status := r.status, statusText := r.statusText,
          httpVersion := r.httpVersion, cookies := r.cookies,
          headers := r.headers, content := none,
          redirectURL := r.redirectURL, headersSize := r.headersSize,
          bodySize := r.bodySize }
  | some c =>
    (Content.marshal c).map
      (fun cw => { status := r.status, statusText := r.statusText,
                   httpVersion := r.httpVersion, cookies := r.cookies,
                   headers := r.headers, content := some cw,
                   redirectURL := r.redirectURL, headersSize := r.headersSize,
                   bodySize := r.bodySize })

/-- `json.Marshal` of an `Entry`. -/
def Entry.marshal (e : Entry) : Except Bytes EntryWire :=
  match e.response with
  | none =>
    .ok { id := e.id, startedDateTime := e.startedDateTime, time := e.time,
          request := e.request.map Request.marshal, host := e.host,
          response := none, timings := e.timings }
  | some r =>
    (Response.marshal r).map
      (fun rw => { id := e.id, startedDateTime := e.startedDateTime,
                   time := e.time, request := e.request.map Request.marshal,
                   host := e.host, response := some rw, timings := e.timings })

/-- An operational log event of the publish pipeline, with the context
fields it carries (correlation id, origin identifier, target host). -/
inductive LogEvent
  | errorSerializing (ctxId originIp host : Bytes)
  | errorPublishing (ctxId originIp host : Bytes)
  | infoEnqueued (ctxId originIp host : Bytes)
deriving Repr, DecidableEq

/-- An observable effect of `RecordRequest`: a log event, or a call to
`channel.Publish` (routing key, content-type tag, and the payload — `none`
models the nil byte slice left by a failed `json.Marshal`). -/
inductive Effect
  | log (e : LogEvent)
  | publish (routingKey contentType : Bytes) (body : Option EntryWire)
deriving Repr, DecidableEq

/-- `Creator` — name/version of the log-producing application. -/
structure Creator where
  name : Bytes
  version : Bytes
deriving Repr, DecidableEq

/-- The `Logger`: capture policies, creator metadata, the correlation map
`entries` with its append-chain `tail`, and the AMQP destination.  The
mutex only guards `entries`/`tail`, which `RecordRequest` never touches. -/
structure Logger where
  bodyLogging : Response → Bool
  postDataLogging : HttpRequest → Bool
  creator : Creator
  entries : List (Bytes × Entry)
  tail : Option Entry
  queueName : Bytes

/-- `NewLogger` followed by its two `SetOption` calls: post data and body
logging both default to enabled, the entry map starts empty. -/
def newLogger (queueName : Bytes) : Logger :=
  { bodyLogging := fun _ => true, postDataLogging := fun _ => true,
    creator := { name := strBytes "martian proxy", version := strBytes "2.0.0" },
    entries := [], tail := none, queueName := queueName }

/-- The tail of `RecordRequest` after the entry is built: `json.Marshal`
outcome in hand, log a serialization failure (without returning), then
always call `channel.Publish` with the marshalled body (nil after a marshal
failure), log the publish outcome, and return nil either way. -/
def recordRequestAux (id originIp host queueName : Bytes)
    (mres : Except Bytes EntryWire) (publishOk : Bool) :
    List Effect × Option Bytes :=
  let serLog : List Effect :=
    match mres with
    | .error _ => [.log (.errorSerializing id originIp host)]
    | .ok _ => []
  let payload : Option EntryWire :=
    match mres with
    | .ok w => some w
    | .error _ => none
  if publishOk then
    (serLog ++ [.publish queueName (strBytes "application/json") payload,
                .log (.infoEnqueued id originIp host)], none)
  else
    (serLog ++ [.publish queueName (strBytes "application/json") payload,
                .log (.errorPublishing id originIp host)], none)

/-- `RecordRequest`: build the `Request` (an error aborts and is returned),
assemble the `Entry` (empty cache, zero timings, no response), serialize it
and drive the publish pipeline.  `publishOk` is the outcome of the external
AMQP publish call; the returned `Logger` is the state after the call. -/
def recordRequest (l : Logger) (keyOrder : List Bytes) (publishOk : Bool)
    (now : Int) (id : Bytes) (req : HttpRequest) :
    List Effect × Logger × Option Bytes :=
  match newRequest keyOrder req (l.postDataLogging req) with
  | .error e => ([], l, some e)
  | .ok (hreq, _) =>
    let entry : Entry :=
      { id := id, startedDateTime := now, time := 0, request := some hreq,
        host := req.host, response := none, timings := {}, next := none }
    let (effs, ret) :=
      recordRequestAux id (headerGet req.headers (strBytes "X-Forwarded-For"))
        req.host l.queueName (Entry.marshal entry) publishOk
    (effs, l, ret)

/-- Modelled from the spec: the proxy's per-request context
(`martian.NewContext` — repository code not under src/), exposing the
stable correlation identifier and the exclude-from-capture flag (§6). -/
structure Ctx where
  id : Bytes
  skippingLogging : Bool

/-- `ModifyRequest`: honor the exclusion flag, otherwise record the
request under the context's correlation id and return its result. -/
def modifyRequest (ctx : Ctx) (l : Logger) (keyOrder : List Bytes)
    (publishOk : Bool) (now : Int) (req : HttpRequest) :
    List Effect × Logger × Option Bytes :=
  if ctx.skippingLogging then ([], l, none)
  else recordRequest l keyOrder publishOk now ctx.id req

/-! ## Operator-facing mapping handler (`exportHandler.ServeHTTP`) -/

/-- A `mapping` record: the document-store id (assigned by `Create`, empty
until then) and the payload fields.  `pkg` models the Go field `Package`. -/
structure Mapping where
  id : Bytes
  ipAddress : Bytes
  pkg : Bytes
  platform : Bytes
deriving Repr, DecidableEq

/-- A document-store call made by the handler (external `mgm` collection,
argument recorded as passed). -/
inductive DbOp
  | deleteOp (m : Mapping)
  | createOp (m : Mapping)
deriving Repr, DecidableEq

/-- One write the handler performs on the `http.ResponseWriter`. -/
inductive RespWrite
  | allowHeader (methods : Bytes)
  | status (code : Nat)
  | httpError (msg : Bytes) (code : Nat)
  | jsonStatus (success : Bool) (message : Bytes)
  | contentType (v : Bytes)
  | jsonMapping (m : Mapping)
deriving Repr, DecidableEq

/-- `exportHandler.ServeHTTP`: method gate, payload decode, required-field
check; on `DELETE` a delete of the matching mapping (an error responds and
returns); then — for `POST` and for a `DELETE` whose delete succeeded — the
Content-Type header is set and a new record is persisted from the same
payload (mutating it with the store-assigned id) and encoded to the caller.
`payload` is the `json.Decode` outcome; `deleteOk`/`createOk` are the
outcomes of the external store calls and `createdId` the id `Create`
assigns. -/
def exportServeHTTP (method : Bytes) (payload : Except Bytes Mapping)
    (deleteOk createOk : Bool) (createdId : Bytes) :
    List DbOp × List RespWrite :=
  if method ≠ strBytes "POST" ∧ method ≠ strBytes "DELETE" then
    ([], [.allowHeader (strBytes "POST,DELETE"), .status 405,
          .jsonStatus false (strBytes "Method not allowed")])
  else
    match payload with
    | .error e =>
      ([], [.httpError e 400,
            .jsonStatus false (strBytes "Payload could not be parsed")])
    | .ok m =>
      if m.ipAddress = [] ∨ m.pkg = [] ∨ m.platform = [] then
        ([], [.status 400,
              .jsonStatus false
                (strBytes "IP address, package and platform are required for a mapping")])
      else if method = strBytes "DELETE" ∧ ¬ deleteOk then
        ([.deleteOp m],
         [.httpError (strBytes "delete failed") 500,
          .jsonStatus false (strBytes "Error deleting mapping")])
      else
        let delOps : List DbOp :=
          if method = strBytes "DELETE" then [.deleteOp m] else []
        if createOk then
          (delOps ++ [.createOp m],
           [.contentType (strBytes "application/json; charset=utf-8"),
            .jsonMapping { m with id := createdId }])
        else
          (delOps ++ [.createOp m],
           [.contentType (strBytes "application/json; charset=utf-8"),
            .status 500, .jsonStatus false (strBytes "error writing to database")])

/-! ## Concrete requests used by witnesses and counterexamples -/

/-- A plain-text request: `Content-Length: 3`, body `"abc"`. -/
def reqText : HttpRequest :=
  { method := strBytes "POST", urlStr := strBytes "http://example.com/",
    proto := strBytes "HTTP/1.1", host := strBytes "example.com",
    contentLength := 3, transferEncoding := [],
    headers := [(strBytes "Content-Type", [strBytes "text/plain"])],
    cookies := [], urlQuery := [], body := strBytes "abc",
    multipartView := .ok [] }

/-- A bodyless request: `Content-Length: 0`, no transfer encoding. -/
def reqNoBody : HttpRequest :=
  { method := strBytes "GET", urlStr := strBytes "http://example.com/",
    proto := strBytes "HTTP/1.1", host := strBytes "example.com",
    contentLength := 0, transferEncoding := [], headers := [],
    cookies := [], urlQuery := [], body := [], multipartView := .ok [] }

/-- A request reporting no content length whose transfer-encoding list is
non-empty but contains no `"chunked"`. -/
def reqTE : HttpRequest :=
  { method := strBytes "PUT", urlStr := strBytes "http://example.com/",
    proto := strBytes "HTTP/1.1", host := strBytes "example.com",
    contentLength := 0, transferEncoding := [strBytes "gzip"], headers := [],
    cookies := [], urlQuery := [], body := [], multipartView := .ok [] }

/-- A URL-encoded form request with body `a=1&a=2&b=3`. -/
def reqForm : HttpRequest :=
  { method := strBytes "POST", urlStr := strBytes "http://example.com/",
    proto := strBytes "HTTP/1.1", host := strBytes "example.com",
    contentLength := 11, transferEncoding := [],
    headers := [(strBytes "Content-Type",
                 [strBytes "application/x-www-form-urlencoded"])],
    cookies := [], urlQuery := [], body := strBytes "a=1&a=2&b=3",
    multipartView := .ok [] }

/-- A URL-encoded form request whose body `a=%zz` has a malformed percent
escape. -/
def reqBadForm : HttpRequest :=
  { method := strBytes "POST", urlStr := strBytes "http://example.com/",
    proto := strBytes "HTTP/1.1", host := strBytes "example.com",
    contentLength := 5, transferEncoding := [],
    headers := [(strBytes "Content-Type",
                 [strBytes "application/x-www-form-urlencoded"])],
    cookies := [], urlQuery := [], body := strBytes "a=%zz",
    multipartView := .ok [] }

/-! ## Claims about the codec (C2, C3, C4) -/

/-- C2: for every PostData whose text is valid UTF-8, serialization emits
it literally with no encoding tag and deserializing the output reproduces
it; for every PostData whose text is not valid UTF-8, serialization emits a
base64-tagged field and deserializing the output reproduces the exact
original bytes. -/
theorem c2_postData_roundtrip (p : PostData) (hb : ∀ b ∈ p.text, b < 256) :
    (validUtf8 p.text = true →
      PostData.marshal p =
        { mimeType := p.mimeType, params := p.params, text := p.text, encoding := [] } ∧
      PostData.unmarshal (PostData.marshal p) = .ok p) ∧
    (validUtf8 p.text = false →
      (PostData.marshal p).encoding = strBytes "base64" ∧
      PostData.unmarshal (PostData.marshal p) = .ok p) := by
  have hne : ([] : Bytes) ≠ strBytes "base64" := by decide
  constructor
  · intro hv
    have hm : PostData.marshal p =
        { mimeType := p.mimeType, params := p.params, text := p.text, encoding := [] } := by
      simp [PostData.marshal, hv]
    refine ⟨hm, ?_⟩
    rw [hm]
    simp [PostData.unmarshal, hne]
  · intro hv
    have hm : PostData.marshal p =
        { mimeType := p.mimeType, params := p.params, text := b64encode p.text,
          encoding := strBytes "base64" } := by
      simp [PostData.marshal, hv]
    refine ⟨by rw [hm], ?_⟩
    rw [hm]
    simp [PostData.unmarshal, b64decode_b64encode p.text hb, Except.map]

theorem c2_witness :
    PostData.unmarshal (PostData.marshal ⟨strBytes "text/plain", [], strBytes "hi"⟩) =
      .ok ⟨strBytes "text/plain", [], strBytes "hi"⟩ ∧
    (PostData.marshal ⟨strBytes "application/octet-stream", [], [0xC3, 0x28]⟩).encoding =
      strBytes "base64" ∧
    PostData.unmarshal (PostData.marshal ⟨strBytes "application/octet-stream", [], [0xC3, 0x28]⟩) =
      .ok ⟨strBytes "application/octet-stream", [], [0xC3, 0x28]⟩ :=
  ⟨((c2_postData_roundtrip ⟨strBytes "text/plain", [], strBytes "hi"⟩ (by decide)).1
      (by decide)).2,
   ((c2_postData_roundtrip ⟨strBytes "application/octet-stream", [], [0xC3, 0x28]⟩
      (by decide)).2 (by decide)).1,
   ((c2_postData_roundtrip ⟨strBytes "application/octet-stream", [], [0xC3, 0x28]⟩
      (by decide)).2 (by decide)).2⟩

/-- C3 counterexample: a serialized PostData carrying the unrecognized
encoding tag `"gzip"` is NOT rejected — `PostData.UnmarshalJSON` treats any
tag other than `"base64"` like the plain form and succeeds, taking the text
field literally. -/
theorem c3_counterexample :
    strBytes "gzip" ≠ [] ∧ strBytes "gzip" ≠ strBytes "base64" ∧
    PostData.unmarshal ⟨strBytes "text/plain", [], strBytes "hi", strBytes "gzip"⟩ =
      .ok ⟨strBytes "text/plain", [], strBytes "hi"⟩ :=
  ⟨by decide, by decide, rfl⟩

/-- C3 amended: `Content` deserialization treats an absent/empty tag as
literal text, decodes `"base64"`, and rejects any other tag; `PostData`
deserialization decodes `"base64"` but treats EVERY other tag value
(absent, empty, or unrecognized) as literal text instead of erroring. -/
theorem c3_amended_decode_tags (wp : PdWire) (wc : ContentWire) (bs : Bytes)
    (hb : ∀ b ∈ bs, b < 256) :
    (wp.encoding ≠ strBytes "base64" →
      PostData.unmarshal wp = .ok ⟨wp.mimeType, wp.params, wp.text⟩) ∧
    (wp.encoding = strBytes "base64" → wp.text = b64encode bs →
      PostData.unmarshal wp = .ok ⟨wp.mimeType, wp.params, bs⟩) ∧
    (wc.encoding = [] →
      Content.unmarshal wc = .ok ⟨wc.size, wc.mimeType, wc.text, wc.encoding⟩) ∧
    (wc.encoding = strBytes "base64" → wc.text = b64encode bs →
      Content.unmarshal wc = .ok ⟨wc.size, wc.mimeType, bs, wc.encoding⟩) ∧
    (wc.encoding ≠ [] → wc.encoding ≠ strBytes "base64" →
      Content.unmarshal wc = .error (strBytes "unsupported encoding for Content.Text")) := by
  refine ⟨?_, ?_, ?_, ?_, ?_⟩
  · intro h; simp [PostData.unmarshal, h]
  · intro h ht
    simp [PostData.unmarshal, h, ht, b64decode_b64encode bs hb, Except.map]
  · intro h
    have hnil : ¬(([] : Bytes) = strBytes "base64") := by decide
    simp [Content.unmarshal, h, hnil]
  · intro h ht
    simp [Content.unmarshal, h, ht, b64decode_b64encode bs hb, Except.map]
  · intro h1 h2; simp [Content.unmarshal, h1, h2]

theorem c3_amended_witness :
    PostData.unmarshal ⟨strBytes "a", [], strBytes "xy", strBytes "gzip"⟩ =
      .ok ⟨strBytes "a", [], strBytes "xy"⟩ ∧
    Content.unmarshal ⟨3, strBytes "a", strBytes "zz", strBytes "gzip"⟩ =
      .error (strBytes "unsupported encoding for Content.Text") :=
  ⟨(c3_amended_decode_tags ⟨strBytes "a", [], strBytes "xy", strBytes "gzip"⟩
      ⟨3, strBytes "a", strBytes "zz", strBytes "gzip"⟩ [] (by decide)).1 (by decide),
   (c3_amended_decode_tags ⟨strBytes "a", [], strBytes "xy", strBytes "gzip"⟩
      ⟨3, strBytes "a", strBytes "zz", strBytes "gzip"⟩ [] (by decide)).2.2.2.2
      (by decide) (by decide)⟩

/-- C4 counterexample: `Content.MarshalJSON` does not test UTF-8 validity.
A Content with invalid UTF-8 text and an empty encoding tag is emitted
literally with no base64 fallback and no tag, contrary to the claim. -/
theorem c4_counterexample :
    validUtf8 [255] = false ∧
    Content.marshal ⟨1, strBytes "application/octet-stream", [255], []⟩ =
      .ok ⟨1, strBytes "application/octet-stream", [255], []⟩ :=
  ⟨by decide, rfl⟩

/-- C4 amended: `Content` serialization never inspects the text bytes; it
is driven by the producer-set encoding tag — empty emits the bytes
literally, `"base64"` emits their base64 encoding, and any other tag is an
error. -/
theorem c4_amended_content_marshal (c : Content) :
    (c.encoding = [] →
      Content.marshal c = .ok ⟨c.size, c.mimeType, c.text, c.encoding⟩) ∧
    (c.encoding = strBytes "base64" →
      Content.marshal c = .ok ⟨c.size, c.mimeType, b64encode c.text, c.encoding⟩) ∧
    (c.encoding ≠ [] → c.encoding ≠ strBytes "base64" →
      Content.marshal c = .error (strBytes "unsupported encoding for Content.Text")) := by
  refine ⟨?_, ?_, ?_⟩
  · intro h
    have hnil : ¬(([] : Bytes) = strBytes "base64") := by decide
    simp [Content.marshal, h, hnil]
  · intro h; simp [Content.marshal, h]
  · intro h1 h2; simp [Content.marshal, h1, h2]

theorem c4_amended_witness :
    Content.marshal ⟨1, strBytes "application/octet-stream", [255], []⟩ =
      .ok ⟨1, strBytes "application/octet-stream", [255], []⟩ ∧
    Content.marshal ⟨2, strBytes "a", [255], strBytes "base64"⟩ =
      .ok ⟨2, strBytes "a", b64encode [255], strBytes "base64"⟩ ∧
    Content.marshal ⟨2, strBytes "a", [], strBytes "gzip"⟩ =
      .error (strBytes "unsupported encoding for Content.Text") :=
  ⟨(c4_amended_content_marshal ⟨1, strBytes "application/octet-stream", [255], []⟩).1 rfl,
   (c4_amended_content_marshal ⟨2, strBytes "a", [255], strBytes "base64"⟩).2.1 rfl,
   (c4_amended_content_marshal ⟨2, strBytes "a", [], strBytes "gzip"⟩).2.2
     (by decide) (by decide)⟩

/-! ## Claims about the body materializer (C1, C5) -/

/-- C5 counterexample: a request with content length 0 whose
transfer-encoding list is non-empty but free of `"chunked"` does NOT get
the early `nil`: the code tests `len(req.TransferEncoding) == 0`, not the
presence of `"chunked"`, so `postData` proceeds and (here, with body
logging off) returns a non-nil PostData. -/
theorem c5_counterexample :
    (strBytes "chunked" ∉ reqTE.transferEncoding) ∧
    reqTE.contentLength ≤ 0 ∧
    postData [] reqTE false = .ok (some ⟨[], [], []⟩, reqTE) :=
  ⟨by decide, by decide, rfl⟩

/-- C5 amended: for every request whose reported content length is at most
zero and whose transfer-encoding list is empty, `postData` returns no
PostData, regardless of the capture policy. -/
theorem c5_nobody_yields_nil (keyOrder : List Bytes) (req : HttpRequest)
    (logBody : Bool) (h1 : req.contentLength ≤ 0)
    (h2 : req.transferEncoding = []) :
    postData keyOrder req logBody = .ok (none, req) := by
  simp [postData, h1, h2]

theorem c5_witness : postData [] reqNoBody true = .ok (none, reqNoBody) :=
  c5_nobody_yields_nil [] reqNoBody true (by decide) rfl

/-! ## Publish pipeline on serialization failure (C7) -/

/-- C7: what `RecordRequest` actually does after a `json.Marshal` failure —
it records the serialization-failure log event with the correlation id,
origin ip and host, but then still reaches the `channel.Publish` call (with
the nil body the failed marshal left) before reporting success; the claimed
"do not publish" behavior does not hold. -/
theorem c7_serialization_failure_still_publishes :
    recordRequestAux (strBytes "id1") (strBytes "1.2.3.4") (strBytes "example.com")
        (strBytes "requests") (.error (strBytes "boom")) true =
      ([.log (.errorSerializing (strBytes "id1") (strBytes "1.2.3.4") (strBytes "example.com")),
        .publish (strBytes "requests") (strBytes "application/json") none,
        .log (.infoEnqueued (strBytes "id1") (strBytes "1.2.3.4") (strBytes "example.com"))],
       none) := rfl

/-- C1: whenever `postData` succeeds — under any capture policy, so in
particular when the policy says to capture — the request it hands back has
its body stream intact: a subsequent independent consumer reads exactly the
original body.  (The snapshot facility itself is external to src/ and is
modelled from the spec in `snapshotRequest`.) -/
theorem c1_postData_nondestructive (keyOrder : List Bytes) (req : HttpRequest)
    (logBody : Bool) (pd : Option PostData) (req' : HttpRequest)
    (h : postData keyOrder req logBody = .ok (pd, req')) :
    req'.body = req.body := by
  simp only [postData, snapshotRequest] at h
  repeat' split at h
  all_goals
    first
      | (simp only [Except.ok.injEq, Prod.mk.injEq] at h; rw [← h.2])
      | simp at h

theorem c1_witness : reqText.body = reqText.body :=
  c1_postData_nondestructive [] reqText true
    (some ⟨strBytes "text/plain", [], strBytes "abc"⟩) reqText rfl

/-! ## Capture orchestrator state (C8) -/

/-- C8 counterexample: with the freshly-constructed logger (empty map) and
a concrete request, `RecordRequest` returns with the correlation map still
empty and the chain tail still nil — the constructed Entry was not inserted
anywhere and is not retained. -/
theorem c8_counterexample :
    (newLogger (strBytes "requests")).entries = [] ∧
    (recordRequest (newLogger (strBytes "requests")) [] true 0 (strBytes "id1")
        reqText).2.1.entries = [] ∧
    (recordRequest (newLogger (strBytes "requests")) [] true 0 (strBytes "id1")
        reqText).2.1.tail = none :=
  ⟨rfl, rfl, rfl⟩

/-- C8 amended: `RecordRequest` never touches the shared correlation map or
the append-order chain — for every logger state and request, the `entries`
map and `tail` pointer after the call are exactly those before it; the
entry exists only in the published payload. -/
theorem c8_amended_no_insertion (l : Logger) (keyOrder : List Bytes)
    (publishOk : Bool) (now : Int) (id : Bytes) (req : HttpRequest) :
    (recordRequest l keyOrder publishOk now id req).2.1.entries = l.entries ∧
    (recordRequest l keyOrder publishOk now id req).2.1.tail = l.tail := by
  unfold recordRequest
  cases hnr : newRequest keyOrder req (l.postDataLogging req) with
  | error e => exact ⟨rfl, rfl⟩
  | ok v => obtain ⟨hreq, r⟩ := v; exact ⟨rfl, rfl⟩

/-! ## Error containment of the request hook (C9) -/

/-- C9 counterexample: a body-decode failure is NOT contained.  For a
request whose urlencoded body has a malformed percent escape, the
`NewRequest` error propagates and `ModifyRequest` returns it (non-nil) to
the proxy, and no capture effect (publish or log) happens at all. -/
theorem c9_counterexample :
    (modifyRequest ⟨strBytes "id9", false⟩ (newLogger (strBytes "requests"))
        [] true 0 reqBadForm).2.2 = some (strBytes "invalid URL escape") ∧
    (modifyRequest ⟨strBytes "id9", false⟩ (newLogger (strBytes "requests"))
        [] true 0 reqBadForm).1 = [] :=
  ⟨rfl, rfl⟩

/-- C9 amended: `ModifyRequest` reports success exactly when the request is
excluded from capture or the capture `Request` is built successfully —
serialization and publish failures are swallowed (success either way), but
a body-decode failure in `NewRequest` is returned to the proxy. -/
theorem c9_amended_containment (ctx : Ctx) (l : Logger) (keyOrder : List Bytes)
    (publishOk : Bool) (now : Int) (req : HttpRequest) :
    (modifyRequest ctx l keyOrder publishOk now req).2.2 = none ↔
      (ctx.skippingLogging = true ∨
        ∃ v, newRequest keyOrder req (l.postDataLogging req) = .ok v) := by
  unfold modifyRequest recordRequest
  by_cases hs : ctx.skippingLogging
  · simp [hs]
  · cases hnr : newRequest keyOrder req (l.postDataLogging req) with
    | error e => simp [hs, hnr]
    | ok v => cases publishOk <;> simp [hs, hnr, recordRequestAux]

/-! ## Mapping-registration handler on DELETE (C10) -/

/-- C10: for a DELETE whose payload parses and carries the required fields,
a successful delete is always followed by a `Create` of a new record built
from the same payload, and when that create succeeds the newly created
record (same fields, store-assigned id) is what is encoded back to the
caller. -/
theorem c10_delete_recreates (m : Mapping) (createOk : Bool) (createdId : Bytes)
    (hip : m.ipAddress ≠ []) (hpkg : m.pkg ≠ []) (hplat : m.platform ≠ []) :
    (exportServeHTTP (strBytes "DELETE") (.ok m) true createOk createdId).1 =
      [.deleteOp m, .createOp m] ∧
    (createOk = true →
      (exportServeHTTP (strBytes "DELETE") (.ok m) true createOk createdId).2 =
        [.contentType (strBytes "application/json; charset=utf-8"),
         .jsonMapping { m with id := createdId }]) := by
  have h1 : ¬(strBytes "DELETE" ≠ strBytes "POST" ∧ strBytes "DELETE" ≠ strBytes "DELETE") := by
    decide
  have h2 : ¬(m.ipAddress = [] ∨ m.pkg = [] ∨ m.platform = []) := by
    simp [hip, hpkg, hplat]
  cases createOk <;>
    simp [exportServeHTTP, h1, h2]

theorem c10_witness :
    (exportServeHTTP (strBytes "DELETE")
        (.ok ⟨[], strBytes "10.0.0.1", strBytes "com.example.app", strBytes "android"⟩)
        true true (strBytes "oid1")).1 =
      [.deleteOp ⟨[], strBytes "10.0.0.1", strBytes "com.example.app", strBytes "android"⟩,
       .createOp ⟨[], strBytes "10.0.0.1", strBytes "com.example.app", strBytes "android"⟩] ∧
    (exportServeHTTP (strBytes "DELETE")
        (.ok ⟨[], strBytes "10.0.0.1", strBytes "com.example.app", strBytes "android"⟩)
        true true (strBytes "oid1")).2 =
      [.contentType (strBytes "application/json; charset=utf-8"),
       .jsonMapping ⟨strBytes "oid1", strBytes "10.0.0.1", strBytes "com.example.app",
                     strBytes "android"⟩] :=
  ⟨(c10_delete_recreates _ true (strBytes "oid1") (by decide) (by decide) (by decide)).1,
   (c10_delete_recreates _ true (strBytes "oid1") (by decide) (by decide) (by decide)).2 rfl⟩

/-! ## Ordering of urlencoded Params (C6) -/

/-- The values carried under name `k` by the parsed pairs, in body order. -/
def valuesOfPairs : List (Bytes × Bytes) → Bytes → List Bytes
  | [], _ => []
  | q :: rest, k =>
    if q.1 = k then q.2 :: valuesOfPairs rest k else valuesOfPairs rest k

/-- The values of the Params named `k`, in emission order. -/
def paramValuesFor : List Param → Bytes → List Bytes
  | [], _ => []
  | p :: rest, k =>
    if p.name = k then p.value :: paramValuesFor rest k else paramValuesFor rest k

/-- Flatten a `url.Values` content back to name/value pairs, per key. -/
def pairsOfValues (m : List (Bytes × List Bytes)) : List (Bytes × Bytes) :=
  m.flatMap (fun e => e.2.map (fun v => (e.1, v)))

theorem lookupValues_valuesAdd :
    ∀ (m : List (Bytes × List Bytes)) (k' v' k : Bytes),
      lookupValues (valuesAdd m k' v') k =
        if k = k' then lookupValues m k ++ [v'] else lookupValues m k
  | [], k', v', k => by
    by_cases h : k = k'
    · subst h; simp [valuesAdd, lookupValues]
    · simp [valuesAdd, lookupValues, h, Ne.symm h]
  | (k0, vs0) :: rest, k', v', k => by
    by_cases h0 : k0 = k'
    · subst h0
      by_cases hk : k0 = k
      · subst hk; simp [valuesAdd, lookupValues]
      · have hk' : ¬(k = k0) := fun he => hk he.symm
        simp [valuesAdd, lookupValues, hk, hk']
    · have ih := lookupValues_valuesAdd rest k' v' k
      by_cases hk : k0 = k
      · subst hk
        simp [valuesAdd, h0, lookupValues]
      · simp [valuesAdd, h0, lookupValues, hk, ih]

theorem lookupValues_foldl :
    ∀ (pairs : List (Bytes × Bytes)) (m : List (Bytes × List Bytes)) (k : Bytes),
      lookupValues (pairs.foldl (fun m kv => valuesAdd m kv.1 kv.2) m) k =
        lookupValues m k ++ valuesOfPairs pairs k
  | [], m, k => by simp [valuesOfPairs]
  | q :: rest, m, k => by
    have ih := lookupValues_foldl rest (valuesAdd m q.1 q.2) k
    rw [List.foldl_cons, ih, lookupValues_valuesAdd]
    by_cases h : q.1 = k
    · subst h
      simp [valuesOfPairs, List.append_assoc]
    · have h' : ¬(k = q.1) := fun he => h he.symm
      simp [valuesOfPairs, h, h']

/-- The `url.Values` lookup reproduces, per key, exactly the values of that
key's pairs in body order. -/
theorem lookupValues_buildValues (pairs : List (Bytes × Bytes)) (k : Bytes) :
    lookupValues (buildValues pairs) k = valuesOfPairs pairs k := by
  have := lookupValues_foldl pairs [] k
  simpa [buildValues, lookupValues] using this

theorem lookupValues_not_mem (m : List (Bytes × List Bytes)) (k : Bytes)
    (h : k ∉ m.map Prod.fst) : lookupValues m k = [] := by
  induction m with
  | nil => rfl
  | cons e rest ih =>
    simp only [List.map_cons, List.mem_cons] at h
    push_neg at h
    have hne : ¬(e.1 = k) := fun he => h.1 he.symm
    simp [lookupValues, hne, ih h.2]

theorem keys_valuesAdd (m : List (Bytes × List Bytes)) (k' : Bytes) (v' : Bytes) :
    (valuesAdd m k' v').map Prod.fst =
      if k' ∈ m.map Prod.fst then m.map Prod.fst else m.map Prod.fst ++ [k'] := by
  induction m with
  | nil => simp [valuesAdd]
  | cons e rest ih =>
    by_cases h0 : e.1 = k'
    · simp [valuesAdd, h0]
    · have h0' : ¬(k' = e.1) := fun he => h0 he.symm
      by_cases hm : k' ∈ rest.map Prod.fst <;>
        simp [valuesAdd, h0, h0', hm, ih]

theorem keys_nodup_foldl :
    ∀ (pairs : List (Bytes × Bytes)) (m : List (Bytes × List Bytes)),
      (m.map Prod.fst).Nodup →
      ((pairs.foldl (fun m kv => valuesAdd m kv.1 kv.2) m).map Prod.fst).Nodup
  | [], _, h => h
  | q :: rest, m, h => by
    rw [List.foldl_cons]
    refine keys_nodup_foldl rest _ ?_
    rw [keys_valuesAdd]
    by_cases hm : q.1 ∈ m.map Prod.fst
    · simpa [hm] using h
    · simp only [hm, if_false]
      simpa [List.nodup_append, hm] using h

/-- The keys of the built `url.Values` are distinct. -/
theorem keys_nodup_buildValues (pairs : List (Bytes × Bytes)) :
    ((buildValues pairs).map Prod.fst).Nodup :=
  keys_nodup_foldl pairs [] (by simp)

theorem pairsOfValues_valuesAdd :
    ∀ (m : List (Bytes × List Bytes)) (k v : Bytes),
      (pairsOfValues (valuesAdd m k v)).Perm (pairsOfValues m ++ [(k, v)])
  | [], k, v => by simp [valuesAdd, pairsOfValues]
  | (k0, vs0) :: rest, k, v => by
    by_cases h0 : k0 = k
    · subst h0
      simp only [valuesAdd, if_pos rfl, if_true, eq_self_iff_true, pairsOfValues,
        List.flatMap_cons, List.map_append, List.map_cons, List.map_nil,
        List.append_assoc, List.singleton_append]
      exact List.Perm.append_left _ (@List.perm_append_comm _ [(k0, v)] _)
    · have ih := pairsOfValues_valuesAdd rest k v
      simp only [valuesAdd, if_neg h0, pairsOfValues, List.flatMap_cons]
      refine (List.Perm.append_left _ ih).trans ?_
      rw [← List.append_assoc]
      exact List.Perm.refl _

theorem pairsOfValues_foldl :
    ∀ (pairs : List (Bytes × Bytes)) (m : List (Bytes × List Bytes)),
      (pairsOfValues (pairs.foldl (fun m kv => valuesAdd m kv.1 kv.2) m)).Perm
        (pairsOfValues m ++ pairs)
  | [], m => by simp
  | q :: rest, m => by
    rw [List.foldl_cons]
    refine (pairsOfValues_foldl rest (valuesAdd m q.1 q.2)).trans ?_
    refine ((pairsOfValues_valuesAdd m q.1 q.2).append_right rest).trans ?_
    rw [List.append_assoc]
    rfl

/-- Grouping into `url.Values` preserves the pairs as a multiset. -/
theorem pairsOfValues_buildValues (pairs : List (Bytes × Bytes)) :
    (pairsOfValues (buildValues pairs)).Perm pairs := by
  simpa [buildValues, pairsOfValues] using pairsOfValues_foldl pairs []

theorem flatMap_congrOn {α β : Type} :
    ∀ (l : List α) (f g : α → List β), (∀ a ∈ l, f a = g a) →
      l.flatMap f = l.flatMap g
  | [], _, _, _ => rfl
  | a :: l, f, g, h => by
    simp only [List.flatMap_cons, h a (by simp)]
    rw [flatMap_congrOn l f g (fun x hx => h x (by simp [hx]))]

/-- Iterating the distinct keys and looking each up re-enumerates the
grouped pairs. -/
theorem keys_flatMap_eq_pairsOfValues :
    ∀ (m : List (Bytes × List Bytes)), (m.map Prod.fst).Nodup →
      (m.map Prod.fst).flatMap
          (fun k => (lookupValues m k).map (fun v => (k, v))) = pairsOfValues m
  | [], _ => rfl
  | e :: rest, hnd => by
    have hne : e.1 ∉ rest.map Prod.fst := (List.nodup_cons.mp hnd).1
    have ih := keys_flatMap_eq_pairsOfValues rest (List.nodup_cons.mp hnd).2
    simp only [List.map_cons, List.flatMap_cons, pairsOfValues]
    have h1 : lookupValues (e :: rest) e.1 = e.2 := by simp [lookupValues]
    have h2 : (rest.map Prod.fst).flatMap
        (fun k => (lookupValues (e :: rest) k).map (fun v => (k, v))) =
        (rest.map Prod.fst).flatMap
          (fun k => (lookupValues rest k).map (fun v => (k, v))) := by
      refine flatMap_congrOn _ _ _ (fun k hk => ?_)
      have : ¬(e.1 = k) := fun he => hne (he ▸ hk)
      simp [lookupValues, this]
    rw [h1, h2, ih]
    rfl

theorem paramValuesFor_append :
    ∀ (A B : List Param) (k : Bytes),
      paramValuesFor (A ++ B) k = paramValuesFor A k ++ paramValuesFor B k
  | [], _, _ => rfl
  | p :: A, B, k => by
    by_cases h : p.name = k <;>
      simp [paramValuesFor, h, paramValuesFor_append A B k]

theorem paramValuesFor_mapped (vs : List Bytes) (k0 k : Bytes) :
    paramValuesFor (vs.map (fun v => ⟨k0, v, [], []⟩)) k =
      if k0 = k then vs else [] := by
  induction vs with
  | nil => by_cases h : k0 = k <;> simp [paramValuesFor, h]
  | cons v vs ih =>
    simp only [List.map_cons, paramValuesFor, ih]
    by_cases h : k0 = k <;> simp [h]

/-- Per key, a `range` emission in any visiting order of distinct keys
yields that key's looked-up values (in their stored order). -/
theorem paramValuesFor_rangeParams :
    ∀ (keyOrder : List Bytes) (m : List (Bytes × List Bytes)) (k : Bytes),
      keyOrder.Nodup →
      paramValuesFor (rangeParams keyOrder m) k =
        if k ∈ keyOrder then lookupValues m k else []
  | [], m, k, _ => by simp [rangeParams, paramValuesFor]
  | k0 :: rest, m, k, hnd => by
    have hnotin : k0 ∉ rest := (List.nodup_cons.mp hnd).1
    have ihr := paramValuesFor_rangeParams rest m k (List.nodup_cons.mp hnd).2
    simp only [rangeParams, List.flatMap_cons] at ihr ⊢
    rw [paramValuesFor_append, paramValuesFor_mapped, ihr]
    by_cases h0 : k0 = k
    · subst h0
      simp [hnotin]
    · have hk0 : ¬(k = k0) := fun he => h0 he.symm
      by_cases hm : k ∈ rest <;> simp [h0, hk0, hm]

/-- C6 counterexample: for the body `a=1&a=2&b=3`, when the Go `range`
happens to visit the `url.Values` keys in the order `b, a` (a legitimate
visiting order: Go map iteration order is unspecified), `postData` emits
`b=3, a=1, a=2` — not the claimed body order `a=1, a=2, b=3`. -/
theorem c6_counterexample :
    postData [strBytes "b", strBytes "a"] reqForm true =
      .ok (some ⟨strBytes "application/x-www-form-urlencoded",
        [⟨strBytes "b", strBytes "3", [], []⟩,
         ⟨strBytes "a", strBytes "1", [], []⟩,
         ⟨strBytes "a", strBytes "2", [], []⟩], []⟩, reqForm) ∧
    ([strBytes "b", strBytes "a"]).Perm
      ((buildValues [(strBytes "a", strBytes "1"), (strBytes "a", strBytes "2"),
        (strBytes "b", strBytes "3")]).map Prod.fst) ∧
    ([⟨strBytes "b", strBytes "3", [], []⟩, ⟨strBytes "a", strBytes "1", [], []⟩,
      ⟨strBytes "a", strBytes "2", [], []⟩] : List Param) ≠
      [⟨strBytes "a", strBytes "1", [], []⟩, ⟨strBytes "a", strBytes "2", [], []⟩,
       ⟨strBytes "b", strBytes "3", [], []⟩] :=
  ⟨rfl, List.Perm.swap (strBytes "a") (strBytes "b") [], by decide⟩

/-- C6 amended: the urlencoded branch emits exactly one Param per parsed
name/value pair (the emitted pairs are a permutation of the body's pairs),
and within each name the values keep body order; but the order across
distinct names follows the unspecified Go map iteration order (`keyOrder`),
not the body. -/
theorem c6_amended_params (keyOrder : List Bytes) (pairs : List (Bytes × Bytes))
    (hperm : keyOrder.Perm ((buildValues pairs).map Prod.fst)) :
    ((rangeParams keyOrder (buildValues pairs)).map
        (fun p => (p.name, p.value))).Perm pairs ∧
    ∀ k, paramValuesFor (rangeParams keyOrder (buildValues pairs)) k =
        valuesOfPairs pairs k := by
  have hkeys : ((buildValues pairs).map Prod.fst).Nodup := keys_nodup_buildValues pairs
  have hnd : keyOrder.Nodup := hperm.nodup_iff.mpr hkeys
  constructor
  · have hmap : (rangeParams keyOrder (buildValues pairs)).map
        (fun p => (p.name, p.value)) =
        keyOrder.flatMap
          (fun k => (lookupValues (buildValues pairs) k).map (fun v => (k, v))) := by
      simp only [rangeParams, List.map_flatMap, List.map_map]
      exact flatMap_congrOn _ _ _ (fun a _ => by simp [Function.comp])
    rw [hmap]
    refine (hperm.flatMap_right _).trans ?_
    rw [keys_flatMap_eq_pairsOfValues (buildValues pairs) hkeys]
    exact pairsOfValues_buildValues pairs
  · intro k
    rw [paramValuesFor_rangeParams keyOrder (buildValues pairs) k hnd,
      lookupValues_buildValues]
    by_cases hk : k ∈ keyOrder
    · simp [hk]
    · have : k ∉ (buildValues pairs).map Prod.fst := fun hm =>
        hk (hperm.mem_iff.mpr hm)
      simp [hk, ← lookupValues_buildValues, lookupValues_not_mem _ _ this]

theorem c6_amended_witness :
    ((rangeParams [strBytes "b", strBytes "a"]
        (buildValues [(strBytes "a", strBytes "1"), (strBytes "a", strBytes "2"),
          (strBytes "b", strBytes "3")])).map (fun p => (p.name, p.value))).Perm
      [(strBytes "a", strBytes "1"), (strBytes "a", strBytes "2"),
       (strBytes "b", strBytes "3")] ∧
    paramValuesFor (rangeParams [strBytes "b", strBytes "a"]
        (buildValues [(strBytes "a", strBytes "1"), (strBytes "a", strBytes "2"),
          (strBytes "b", strBytes "3")])) (strBytes "a") =
      valuesOfPairs [(strBytes "a", strBytes "1"), (strBytes "a", strBytes "2"),
        (strBytes "b", strBytes "3")] (strBytes "a") :=
  ⟨(c6_amended_params [strBytes "b", strBytes "a"]
      [(strBytes "a", strBytes "1"), (strBytes "a", strBytes "2"),
       (strBytes "b", strBytes "3")]
      (List.Perm.swap (strBytes "a") (strBytes "b") [])).1,
   (c6_amended_params [strBytes "b", strBytes "a"]
      [(strBytes "a", strBytes "1"), (strBytes "a", strBytes "2"),
       (strBytes "b", strBytes "3")]
      (List.Perm.swap (strBytes "a") (strBytes "b") [])).2 (strBytes "a")⟩

end Har
